import Mathlib

/-!
Shallow embedding of the real-time client layer of the `wildgo-Fe` chat
frontend, and proofs of its specified properties.

Embedded source files:
* `lib/websocket.ts` (`WebSocketClient`): the client reconnection state
  machine — connection flag, manual-disconnect flag, exponential backoff
  counters, desired room set, and the `onopen`/`onclose` transport handlers.
* `hooks/useWebSocket.ts` (`useTypingIndicator`, `useOnlineUsers`): the
  typing-debounce tracker and the online-users tracker.
* the context-variant `useTypingIndicator` (same hook file in the
  context-based revision), which additionally filters the local user's id.

Modelling conventions:
* Time is a virtual clock in milliseconds (`Nat`); `setTimeout` deadlines are
  stored explicitly and fired by an `expire` transition.
* A JS `Set<number>` is an insertion-ordered duplicate-free `List Nat`
  (`add` appends when absent, `delete` filters).
* A JS `Map<number, Timeout>` is an association list `List (Nat × Nat)`
  mapping a user id to its expiry deadline.
* Stateful methods become pure functions `State → State × output`, where the
  output records the frames written to the transport and/or the reconnect
  delay passed to `setTimeout`.
-/

/-- Frame `type` field of the wire protocol
(`'message' | 'typing' | 'join' | 'leave' | 'error'`). -/
inductive FrameType where
  | message
  | typing
  | join
  | leave
  | error
  deriving DecidableEq, Repr

/-- The `content` payload of a frame: `{room_id}` for join/leave intents,
`{typing: boolean}` for typing intents, an opaque message record, or an
error string. -/
inductive WSContent where
  | roomRef (room_id : Nat)
  | typingFlag (typing : Bool)
  | messageRecord (id : Nat)
  | errorText (code : Nat)
  deriving DecidableEq, Repr

/-- A wire frame (`WSMessage` in `lib/websocket.ts`): `type`, `room_id`,
`user_id`, `content`.  The optional `timestamp` carries no behaviour in the
embedded code and is omitted. -/
structure WSMessage where
  type : FrameType
  room_id : Nat
  user_id : Nat
  content : WSContent
  deriving DecidableEq, Repr

/-- JS `Set.add`: append if absent, keeping insertion order (JS `Set`). -/
def setAdd (l : List Nat) (x : Nat) : List Nat :=
  if x ∈ l then l else l ++ [x]

/-- JS `Set.delete`: remove the element (JS `Set`). -/
def setDelete (l : List Nat) (x : Nat) : List Nat :=
  l.filter (fun y => y ≠ x)

theorem setAdd_nodup {l : List Nat} (h : l.Nodup) (x : Nat) :
    (setAdd l x).Nodup := by
  unfold setAdd
  split
  · exact h
  · next hx => simpa [List.nodup_append] using ⟨h, hx⟩

theorem setDelete_nodup {l : List Nat} (h : l.Nodup) (x : Nat) :
    (setDelete l x).Nodup :=
  h.filter _

theorem mem_setAdd_self (l : List Nat) (x : Nat) : x ∈ setAdd l x := by
  unfold setAdd
  split
  · assumption
  · simp

theorem not_mem_setDelete (l : List Nat) (x : Nat) : x ∉ setDelete l x := by
  unfold setDelete
  simp

theorem setAdd_of_mem {l : List Nat} {x : Nat} (h : x ∈ l) : setAdd l x = l := by
  unfold setAdd
  simp [h]

/-- State of `WebSocketClient` (`lib/websocket.ts`).  The physical socket is
abstracted to `wsOpen` (a socket exists and its `readyState` is `OPEN`);
`socketsCreated` counts `new WebSocket(url)` constructions so that "no new
transport is created" is expressible.  Handler registries are sets of opaque
handler ids. -/
structure WSClient where
  wsOpen : Bool
  connected : Bool
  reconnecting : Bool
  manualDisconnect : Bool
  reconnectDelay : Nat
  maxReconnectDelay : Nat
  currentRooms : List Nat
  reconnectAttempts : Nat
  socketsCreated : Nat
  messageHandlers : List (FrameType × Nat)
  errorHandlers : List Nat
  connectHandlers : List Nat
  disconnectHandlers : List Nat
  deriving DecidableEq, Repr

/-- The state set up by the `WebSocketClient` constructor: no socket, not
connected, base delay 5000 ms, ceiling 60000 ms, empty room set. -/
def WSClient.initState : WSClient :=
  { wsOpen := false
    connected := false
    reconnecting := false
    manualDisconnect := false
    reconnectDelay := 5000
    maxReconnectDelay := 60000
    currentRooms := []
    reconnectAttempts := 0
    socketsCreated := 0
    messageHandlers := []
    errorHandlers := []
    connectHandlers := []
    disconnectHandlers := [] }

/-- Method `isConnected()`: `this.connected && this.ws?.readyState === WebSocket.OPEN`. -/
def WSClient.isConnected (s : WSClient) : Bool :=
  s.connected && s.wsOpen

/-- The `join` frame built by `joinRoom`:
`{type: 'join', room_id, user_id: 0, content: {room_id}}`. -/
def joinFrame (roomId : Nat) : WSMessage :=
  { type := .join, room_id := roomId, user_id := 0, content := .roomRef roomId }

/-- The `leave` frame built by `leaveRoom`. -/
def leaveFrame (roomId : Nat) : WSMessage :=
  { type := .leave, room_id := roomId, user_id := 0, content := .roomRef roomId }

/-- The `typing` frame built by `sendTyping`. -/
def typingIntentFrame (roomId : Nat) (isTyping : Bool) : WSMessage :=
  { type := .typing, room_id := roomId, user_id := 0,
    content := .typingFlag isTyping }

/-- Method `joinRoom(roomId)`: add to `currentRooms` unconditionally; send the join
frame only when `isConnected()`. -/
def WSClient.joinRoom (s : WSClient) (roomId : Nat) : WSClient × List WSMessage :=
  let s' := { s with currentRooms := setAdd s.currentRooms roomId }
  if s.isConnected then (s', [joinFrame roomId]) else (s', [])

/-- Method `leaveRoom(roomId)`: delete from `currentRooms` unconditionally; send the
leave frame only when `isConnected()`. -/
def WSClient.leaveRoom (s : WSClient) (roomId : Nat) : WSClient × List WSMessage :=
  let s' := { s with currentRooms := setDelete s.currentRooms roomId }
  if s.isConnected then (s', [leaveFrame roomId]) else (s', [])

/-- Method `sendTyping(roomId, isTyping)`: send only when `isConnected()`, otherwise
silently drop. -/
def WSClient.sendTyping (s : WSClient) (roomId : Nat) (isTyping : Bool) :
    WSClient × List WSMessage :=
  if s.isConnected then (s, [typingIntentFrame roomId isTyping]) else (s, [])

/-- Method `connect()`: when already `connected` it resolves immediately and returns
without touching anything; otherwise it constructs a fresh `WebSocket`
(counted by `socketsCreated`, not yet open).  The returned `Bool` is `true`
when the promise resolved immediately on the early-return path. -/
def WSClient.connect (s : WSClient) : WSClient × Bool :=
  if s.connected then (s, true)
  else ({ s with wsOpen := false, socketsCreated := s.socketsCreated + 1 }, false)

/-- Method `disconnect()`: set the manual-disconnect flag, clear `connected`, close
and drop the socket. -/
def WSClient.disconnect (s : WSClient) : WSClient :=
  { s with manualDisconnect := true, connected := false, wsOpen := false }

/-- The `ws.onopen` handler: mark connected, clear `reconnecting`, reset
`reconnectAttempts` to 0 and `reconnectDelay` to 5000, then re-issue
`joinRoom` for every room in `currentRooms`.  Returns the final state and the
frames written to the transport during the handler, in order. -/
def WSClient.handleOpen (s : WSClient) : WSClient × List WSMessage :=
  let s1 : WSClient :=
    { s with wsOpen := true, connected := true, reconnecting := false,
             reconnectAttempts := 0, reconnectDelay := 5000 }
  s1.currentRooms.foldl
    (fun acc roomId =>
      let r := acc.1.joinRoom roomId
      (r.1, acc.2 ++ r.2))
    (s1, [])

/-- Method `attemptReconnect()`: bail out when already `reconnecting` or after a
manual disconnect; otherwise increment the attempt counter and schedule a
retry after `min(reconnectDelay * 2 ^ (attempts - 1), maxReconnectDelay)`.
The scheduled delay is returned as `some d`; `none` means nothing was
scheduled. -/
def WSClient.attemptReconnect (s : WSClient) : WSClient × Option Nat :=
  if s.reconnecting || s.manualDisconnect then (s, none)
  else
    let attempts := s.reconnectAttempts + 1
    let delay := min (s.reconnectDelay * 2 ^ (attempts - 1)) s.maxReconnectDelay
    ({ s with reconnecting := true, reconnectAttempts := attempts }, some delay)

/-- The `ws.onclose` handler: clear `connected`, then call
`attemptReconnect()` unless the disconnect was manual.  Returns the new state
and the scheduled reconnect delay, if any. -/
def WSClient.handleClose (s : WSClient) : WSClient × Option Nat :=
  let s1 := { s with connected := false }
  if !s1.manualDisconnect then s1.attemptReconnect else (s1, none)

/-- One failed reconnect attempt, as executed by the `setTimeout` callback of
`attemptReconnect`: `connect()` is retried and fails, so its `.catch` clears
`reconnecting`, and the failed socket's `onclose` fires, which calls
`attemptReconnect` again (the disconnect was not manual on this path, which
the `onclose` handler re-checks). -/
def WSClient.reconnectFailCycle (s : WSClient) : WSClient × Option Nat :=
  let s1 := { s with reconnecting := false }
  WSClient.handleClose s1

/-- The state reached by a non-manual `onclose` that schedules a retry:
`connected` cleared, `reconnecting` set, attempt counter bumped. -/
def WSClient.bumpAttempts (s : WSClient) : WSClient :=
  { s with connected := false, reconnecting := true,
           reconnectAttempts := s.reconnectAttempts + 1 }

/-- The field resets performed at the top of the `onopen` handler. -/
def WSClient.openReset (s : WSClient) : WSClient :=
  { s with wsOpen := true, connected := true, reconnecting := false,
           reconnectAttempts := 0, reconnectDelay := 5000 }

/-- Iterated failed reconnect attempts, collecting every scheduled delay. -/
def WSClient.failRunDelays : Nat → WSClient → List Nat
  | 0, _ => []
  | k + 1, s =>
    (s.reconnectFailCycle).2.toList ++
      WSClient.failRunDelays k (s.reconnectFailCycle).1

/-- A transport loss followed by `k` consecutive failed reconnect attempts:
the `onclose` handler schedules the first retry, and each retry that fails
schedules the next.  Returns every delay handed to `setTimeout`, in order. -/
def WSClient.lossThenFailures (s : WSClient) (k : Nat) : List Nat :=
  (s.handleClose).2.toList ++ WSClient.failRunDelays k (s.handleClose).1

/-!  ## Typing-debounce tracker (`useTypingIndicator` in `hooks/useWebSocket.ts`)

The hook keeps `typingUsers : number[]` plus a `Map` of pending
`setTimeout` handles keyed by user id.  The timeout handle is modelled by its
firing deadline `now + 3000`; `expire t` fires every pending timeout whose
deadline has been reached by time `t`. -/

/-- Tracker state: the exposed `typingUsers` list and the pending-timeout map
(user id ↦ deadline in ms). -/
structure TypingState where
  typingUsers : List Nat
  timeouts : List (Nat × Nat)
  deriving DecidableEq, Repr

/-- The tracker state at mount: no one typing, no pending timeouts. -/
def TypingState.initState : TypingState := { typingUsers := [], timeouts := [] }

/-- Deadline of the pending timeout for `u`, if one exists (`Map.get`). -/
def timeoutFor (timeouts : List (Nat × Nat)) (u : Nat) : Option Nat :=
  (timeouts.find? (fun p => p.1 == u)).map Prod.snd

/-- JS `Map.set`: replace any binding for `u` with deadline `d`. -/
def timeoutSet (timeouts : List (Nat × Nat)) (u d : Nat) : List (Nat × Nat) :=
  timeouts.filter (fun p => p.1 ≠ u) ++ [(u, d)]

/-- JS `clearTimeout` plus `Map.delete`: drop the binding for `u`. -/
def timeoutClear (timeouts : List (Nat × Nat)) (u : Nat) : List (Nat × Nat) :=
  timeouts.filter (fun p => p.1 ≠ u)

/-- The JS test `msg.content?.typing === true`. -/
def contentTypingTrue : WSContent → Bool
  | .typingFlag b => b
  | _ => false

/-- The `'typing'` message handler of `useTypingIndicator` in
`hooks/useWebSocket.ts`: ignore other rooms; on `typing=true` add the user if
absent and (re)arm a 3000 ms removal timeout; otherwise remove the user and
cancel its timeout.  `now` is the virtual arrival time of the event. -/
def typingHandler (roomId now : Nat) (s : TypingState) (msg : WSMessage) :
    TypingState :=
  if msg.room_id ≠ roomId then s
  else
    let userId := msg.user_id
    if contentTypingTrue msg.content then
      { typingUsers :=
          if userId ∈ s.typingUsers then s.typingUsers
          else s.typingUsers ++ [userId]
        timeouts := timeoutSet s.timeouts userId (now + 3000) }
    else
      { typingUsers := s.typingUsers.filter (fun id => id ≠ userId)
        timeouts := timeoutClear s.timeouts userId }

/-- Whether the pending timeout for `u` (if any) has reached its deadline at
time `t`. -/
def timeoutDue (timeouts : List (Nat × Nat)) (u t : Nat) : Bool :=
  match timeoutFor timeouts u with
  | some d => d ≤ t
  | none => false

/-- Fire every pending timeout whose deadline is ≤ `t`: each such timeout's
callback filters its user out of `typingUsers` and deletes its map entry. -/
def expire (t : Nat) (s : TypingState) : TypingState :=
  { typingUsers := s.typingUsers.filter (fun u => !timeoutDue s.timeouts u t)
    timeouts := s.timeouts.filter (fun p => !(p.2 ≤ t)) }

/-- The `'typing'` handler of the context-variant `useTypingIndicator`
(`useWebSocketContext` revision): identical to `typingHandler` except that,
when a truthy `currentUserId` is supplied, events whose `user_id` equals it
are dropped (`if (currentUserId && userId === currentUserId) return`).
`none` models an omitted `currentUserId`; `some 0` is falsy in JS and
disables the filter as well. -/
def ctxTypingHandler (currentUserId : Option Nat) (roomId now : Nat)
    (s : TypingState) (msg : WSMessage) : TypingState :=
  if msg.room_id ≠ roomId then s
  else
    let userId := msg.user_id
    let truthyFilter :=
      match currentUserId with
      | some c => c ≠ 0 && userId == c
      | none => false
    if truthyFilter then s
    else if contentTypingTrue msg.content then
      { typingUsers :=
          if userId ∈ s.typingUsers then s.typingUsers
          else s.typingUsers ++ [userId]
        timeouts := timeoutSet s.timeouts userId (now + 3000) }
    else
      { typingUsers := s.typingUsers.filter (fun id => id ≠ userId)
        timeouts := timeoutClear s.timeouts userId }

/-- An observable step of the tracker: an inbound `'typing'` frame arriving at
`now`, or the clock reaching `t` (firing due timeouts). -/
inductive TypingEvt where
  | msg (now : Nat) (frame : WSMessage)
  | clock (t : Nat)
  deriving Repr

/-- Run the `hooks/useWebSocket.ts` tracker over a sequence of steps. -/
def runTyping (roomId : Nat) : List TypingEvt → TypingState → TypingState
  | [], s => s
  | .msg now f :: es, s => runTyping roomId es (typingHandler roomId now s f)
  | .clock t :: es, s => runTyping roomId es (expire t s)

/-- Run the context-variant tracker over a sequence of steps. -/
def runCtxTyping (currentUserId : Option Nat) (roomId : Nat) :
    List TypingEvt → TypingState → TypingState
  | [], s => s
  | .msg now f :: es, s =>
      runCtxTyping currentUserId roomId es
        (ctxTypingHandler currentUserId roomId now s f)
  | .clock t :: es, s => runCtxTyping currentUserId roomId es (expire t s)

/-!  ## Online-users tracker (`useOnlineUsers` in `hooks/useWebSocket.ts`) -/

/-- The `'join'` handler: add `msg.user_id` if not already present. -/
def handleJoinEvt (onlineUsers : List Nat) (msg : WSMessage) : List Nat :=
  if msg.user_id ∈ onlineUsers then onlineUsers
  else onlineUsers ++ [msg.user_id]

/-- The `'leave'` handler: filter `msg.user_id` out. -/
def handleLeaveEvt (onlineUsers : List Nat) (msg : WSMessage) : List Nat :=
  onlineUsers.filter (fun id => id ≠ msg.user_id)

/-- An inbound presence event as dispatched to `useOnlineUsers`. -/
inductive PresenceEvt where
  | joined (frame : WSMessage)
  | left (frame : WSMessage)
  deriving Repr

/-- Run the online-users tracker over a sequence of presence events. -/
def runOnline : List PresenceEvt → List Nat → List Nat
  | [], s => s
  | .joined f :: es, s => runOnline es (handleJoinEvt s f)
  | .left f :: es, s => runOnline es (handleLeaveEvt s f)

/-- An inbound `typing` frame as broadcast by the server
(user_id = the typer, content = `{typing: b}`). -/
def typingEvtFrame (roomId userId : Nat) (b : Bool) : WSMessage :=
  { type := .typing, room_id := roomId, user_id := userId,
    content := .typingFlag b }

/-!  ## Characterising the `onopen` replay -/

theorem joinFrame_injective : Function.Injective joinFrame := by
  intro a b h
  simpa [joinFrame] using congrArg WSMessage.room_id h

theorem WSClient.joinRoom_of_mem {s : WSClient} {r : Nat}
    (hr : r ∈ s.currentRooms) (hc : s.isConnected = true) :
    s.joinRoom r = (s, [joinFrame r]) := by
  unfold WSClient.joinRoom
  simp [hc, setAdd_of_mem hr]

theorem joinAll_eq (l : List Nat) :
    ∀ (s : WSClient) (out : List WSMessage), s.isConnected = true →
      (∀ r ∈ l, r ∈ s.currentRooms) →
      l.foldl
        (fun acc roomId =>
          let r := acc.1.joinRoom roomId
          (r.1, acc.2 ++ r.2)) (s, out) = (s, out ++ l.map joinFrame) := by
  induction l with
  | nil => intro s out _ _; simp
  | cons a l ih =>
    intro s out hc hmem
    have ha : a ∈ s.currentRooms := hmem a (by simp)
    have hstep : s.joinRoom a = (s, [joinFrame a]) :=
      WSClient.joinRoom_of_mem ha hc
    have htail : ∀ r ∈ l, r ∈ s.currentRooms := fun r hr => hmem r (by simp [hr])
    simp only [List.foldl_cons, hstep]
    rw [ih s (out ++ [joinFrame a]) hc htail]
    simp

/-- The `onopen` handler equals the plain record update plus one join frame
per desired room, in room-set insertion order. -/
theorem WSClient.handleOpen_eq (s : WSClient) :
    s.handleOpen = (s.openReset, s.currentRooms.map joinFrame) := by
  unfold WSClient.handleOpen
  exact joinAll_eq _ _ [] rfl (fun r hr => hr)

/-- C9: calling `connect()` while the client is already connected resolves
immediately and changes nothing — no new transport is constructed, and the
desired room set, backoff counters, manual-disconnect flag, and every handler
registry are left exactly as they were (the whole state is returned
unchanged, `socketsCreated` included). -/
theorem connect_idempotent_when_connected (s : WSClient)
    (h : s.connected = true) : s.connect = (s, true) := by
  unfold WSClient.connect
  simp [h]

/-- Witness for `connect_idempotent_when_connected` at a concrete connected
state. -/
theorem connect_idempotent_when_connected_witness :
    ({ WSClient.initState with connected := true } : WSClient).connected = true ∧
    ({ WSClient.initState with connected := true } : WSClient).connect =
      ({ WSClient.initState with connected := true }, true) :=
  ⟨rfl, connect_idempotent_when_connected _ rfl⟩

/-- C6: `joinRoom` adds the room id to the desired set and `leaveRoom`
removes it, unconditionally in every connection state; the join/leave frame
is sent iff the client is currently open (`isConnected()`); otherwise the
effect is deferred — the next `onopen` replay does (resp. does not) emit a
join for the room. -/
theorem joinRoom_leaveRoom_desired_set (s : WSClient) (r : Nat) :
    r ∈ (s.joinRoom r).1.currentRooms ∧
    r ∉ (s.leaveRoom r).1.currentRooms ∧
    (s.joinRoom r).2 = (if s.isConnected then [joinFrame r] else []) ∧
    (s.leaveRoom r).2 = (if s.isConnected then [leaveFrame r] else []) ∧
    joinFrame r ∈ ((s.joinRoom r).1.handleOpen).2 ∧
    joinFrame r ∉ ((s.leaveRoom r).1.handleOpen).2 := by
  refine ⟨?_, ?_, ?_, ?_, ?_, ?_⟩
  · unfold WSClient.joinRoom
    split <;> exact mem_setAdd_self _ _
  · unfold WSClient.leaveRoom
    split <;> exact not_mem_setDelete _ _
  · unfold WSClient.joinRoom
    split <;> simp_all
  · unfold WSClient.leaveRoom
    split <;> simp_all
  · rw [WSClient.handleOpen_eq]
    refine List.mem_map_of_mem joinFrame ?_
    unfold WSClient.joinRoom
    split <;> exact mem_setAdd_self _ _
  · rw [WSClient.handleOpen_eq]
    intro hmem
    have : r ∈ (s.leaveRoom r).1.currentRooms := by
      rcases List.mem_map.1 hmem with ⟨a, ha, heq⟩
      have har : a = r := joinFrame_injective heq
      exact har ▸ ha
    have hnot : r ∉ (s.leaveRoom r).1.currentRooms := by
      unfold WSClient.leaveRoom
      split <;> exact not_mem_setDelete _ _
    exact hnot this

/-- C4: whenever the transport transitions to open, the frames written during
the `onopen` handler are exactly one join intent per room of the desired room
set (in set order) and nothing else — so every desired room gets exactly one
join, before any other outbound traffic. -/
theorem open_replays_each_room_once (s : WSClient)
    (h : s.currentRooms.Nodup) :
    (s.handleOpen).2 = s.currentRooms.map joinFrame ∧
    (∀ r ∈ s.currentRooms, ((s.handleOpen).2.count (joinFrame r)) = 1) ∧
    (∀ f ∈ (s.handleOpen).2, ∃ r ∈ s.currentRooms, f = joinFrame r) := by
  rw [WSClient.handleOpen_eq]
  refine ⟨rfl, ?_, ?_⟩
  · intro r hr
    rw [List.count_map_of_injective _ _ joinFrame_injective]
    exact List.count_eq_one_of_mem h hr
  · intro f hf
    rcases List.mem_map.1 hf with ⟨a, ha, heq⟩
    exact ⟨a, ha, heq.symm⟩

/-- Witness for `open_replays_each_room_once` on a client whose desired room
set is `{10, 20}`. -/
theorem open_replays_each_room_once_witness :
    ((({ WSClient.initState with currentRooms := [10, 20] } : WSClient).handleOpen).2
      = [joinFrame 10, joinFrame 20]) ∧
    (∀ r ∈ [10, 20],
      ((({ WSClient.initState with currentRooms := [10, 20] } : WSClient).handleOpen).2.count
        (joinFrame r)) = 1) :=
  ⟨(open_replays_each_room_once
      { WSClient.initState with currentRooms := [10, 20] } (by decide)).1,
   (open_replays_each_room_once
      { WSClient.initState with currentRooms := [10, 20] } (by decide)).2.1⟩

/-!  ## Manual disconnect and reconnect suppression -/

/-- Iterate the `onclose` transition `n` times (keeping only the state). -/
def closeIter : Nat → WSClient → WSClient
  | 0, s => s
  | n + 1, s => closeIter n (s.handleClose).1

theorem handleClose_manual {s : WSClient} (h : s.manualDisconnect = true) :
    s.handleClose = ({ s with connected := false }, none) := by
  unfold WSClient.handleClose
  simp [h]

theorem closeIter_manual (n : Nat) :
    ∀ s : WSClient, s.manualDisconnect = true →
      (closeIter n s).manualDisconnect = true := by
  induction n with
  | zero => intro s h; exact h
  | succ n ih =>
    intro s h
    unfold closeIter
    exact ih _ (by rw [handleClose_manual h]; exact h)

/-- C5: once `disconnect()` has run, no `onclose` event — however many occur
afterwards — ever schedules an automatic reconnect: under the
manual-disconnect flag the `onclose` handler skips `attemptReconnect`, and
the flag stays set, so `setTimeout` is never called. -/
theorem manual_disconnect_suppresses_reconnect (s : WSClient) (n : Nat) :
    (closeIter n s.disconnect).manualDisconnect = true ∧
    ((closeIter n s.disconnect).handleClose).2 = none := by
  have hflag : (closeIter n s.disconnect).manualDisconnect = true :=
    closeIter_manual n _ rfl
  exact ⟨hflag, by rw [handleClose_manual hflag]⟩

/-- C2 counterexample: `connect()` does NOT clear the manual-disconnect
flag.  Starting from a freshly constructed client, after `disconnect()`
followed by an explicit `connect()` whose transport even opens successfully,
the flag is still set — and the next transport loss schedules no reconnect,
contradicting the claim that a post-`connect()` loss again triggers
automatic reconnection. -/
theorem connect_clears_manual_flag_cex :
    ((((WSClient.initState.disconnect).connect).1.handleOpen).1).manualDisconnect
        = true ∧
    (((((WSClient.initState.disconnect).connect).1.handleOpen).1).handleClose).2
        = none := by decide

/-- One public/handler operation of `WebSocketClient`, for quantifying over
arbitrary call sequences. -/
inductive ClientOp where
  | connectCall
  | disconnectCall
  | joinRoomCall (roomId : Nat)
  | leaveRoomCall (roomId : Nat)
  | sendTypingCall (roomId : Nat) (isTyping : Bool)
  | openEvt
  | closeEvt
  | reconnectTick
  deriving DecidableEq, Repr

/-- Apply one operation, dropping outputs. -/
def applyOp (s : WSClient) : ClientOp → WSClient
  | .connectCall => (s.connect).1
  | .disconnectCall => s.disconnect
  | .joinRoomCall r => (s.joinRoom r).1
  | .leaveRoomCall r => (s.leaveRoom r).1
  | .sendTypingCall r b => (s.sendTyping r b).1
  | .openEvt => (s.handleOpen).1
  | .closeEvt => (s.handleClose).1
  | .reconnectTick => (s.reconnectFailCycle).1

/-- Apply a sequence of operations in order. -/
def applyOps (s : WSClient) : List ClientOp → WSClient
  | [] => s
  | op :: ops => applyOps (applyOp s op) ops

theorem applyOp_manual {s : WSClient} (h : s.manualDisconnect = true)
    (op : ClientOp) : (applyOp s op).manualDisconnect = true := by
  cases op with
  | connectCall =>
    show ((s.connect).1).manualDisconnect = true
    unfold WSClient.connect
    split <;> exact h
  | disconnectCall => rfl
  | joinRoomCall r =>
    show ((s.joinRoom r).1).manualDisconnect = true
    simp only [WSClient.joinRoom]
    split <;> exact h
  | leaveRoomCall r =>
    show ((s.leaveRoom r).1).manualDisconnect = true
    simp only [WSClient.leaveRoom]
    split <;> exact h
  | sendTypingCall r b =>
    show ((s.sendTyping r b).1).manualDisconnect = true
    unfold WSClient.sendTyping
    split <;> exact h
  | openEvt =>
    show ((WSClient.handleOpen s).1).manualDisconnect = true
    rw [WSClient.handleOpen_eq]
    exact h
  | closeEvt =>
    show ((WSClient.handleClose s).1).manualDisconnect = true
    rw [handleClose_manual h]
    exact h
  | reconnectTick =>
    show ((WSClient.reconnectFailCycle s).1).manualDisconnect = true
    unfold WSClient.reconnectFailCycle
    rw [handleClose_manual
      (show ({ s with reconnecting := false } : WSClient).manualDisconnect = true from h)]
    exact h

/-- C2 amended: once `disconnect()` sets the manual-disconnect flag, NO
operation of the client — `connect()` included — ever clears it: after any
sequence of calls and transport events the flag is still set, so automatic
reconnection stays suppressed for the lifetime of the instance. -/
theorem manual_flag_never_cleared (s : WSClient)
    (h : s.manualDisconnect = true) :
    ∀ ops : List ClientOp, (applyOps s ops).manualDisconnect = true := by
  intro ops
  induction ops generalizing s with
  | nil => exact h
  | cons op ops ih => exact ih _ (applyOp_manual h op)

/-- Witness for `manual_flag_never_cleared`: after a manual disconnect, a
later explicit connect and successful open leave the flag set. -/
theorem manual_flag_never_cleared_witness :
    (applyOps (WSClient.initState.disconnect)
      [ClientOp.connectCall, ClientOp.openEvt,
       ClientOp.closeEvt]).manualDisconnect = true :=
  manual_flag_never_cleared WSClient.initState.disconnect rfl _

/-!  ## Exponential backoff -/

theorem reconnectFailCycle_eq {s : WSClient} (hm : s.manualDisconnect = false) :
    s.reconnectFailCycle =
      (s.bumpAttempts,
       some (min (s.reconnectDelay * 2 ^ s.reconnectAttempts)
               s.maxReconnectDelay)) := by
  unfold WSClient.reconnectFailCycle WSClient.handleClose WSClient.attemptReconnect
  simp [hm, WSClient.bumpAttempts]

theorem handleClose_not_manual {s : WSClient} (hm : s.manualDisconnect = false)
    (hr : s.reconnecting = false) :
    s.handleClose =
      (s.bumpAttempts,
       some (min (s.reconnectDelay * 2 ^ s.reconnectAttempts)
               s.maxReconnectDelay)) := by
  unfold WSClient.handleClose WSClient.attemptReconnect
  simp [hm, hr, WSClient.bumpAttempts]

theorem bump_reconnectAttempts (s : WSClient) :
    (s.bumpAttempts).reconnectAttempts = s.reconnectAttempts + 1 := rfl

theorem bump_reconnectDelay (s : WSClient) :
    (s.bumpAttempts).reconnectDelay = s.reconnectDelay := rfl

theorem bump_maxReconnectDelay (s : WSClient) :
    (s.bumpAttempts).maxReconnectDelay = s.maxReconnectDelay := rfl

theorem failRunDelays_formula (k : Nat) :
    ∀ s : WSClient, s.manualDisconnect = false →
      s.reconnectDelay = 5000 → s.maxReconnectDelay = 60000 →
      WSClient.failRunDelays k s =
        (List.range k).map
          (fun i => min (5000 * 2 ^ (s.reconnectAttempts + i)) 60000) := by
  induction k with
  | zero => intro s _ _ _; rfl
  | succ k ih =>
    intro s hm hd hx
    unfold WSClient.failRunDelays
    rw [reconnectFailCycle_eq hm]
    dsimp only
    rw [ih s.bumpAttempts hm hd hx]
    simp only [hd, hx, bump_reconnectAttempts, Option.toList_some,
      List.singleton_append, List.range_succ_eq_map, List.map_cons,
      List.map_map, Nat.add_zero]
    refine congrArg₂ List.cons rfl ?_
    refine List.map_congr_left fun i _ => ?_
    show min (5000 * 2 ^ (s.reconnectAttempts + 1 + i)) 60000 =
      min (5000 * 2 ^ (s.reconnectAttempts + (i + 1))) 60000
    have harith : s.reconnectAttempts + 1 + i = s.reconnectAttempts + (i + 1) := by
      omega
    rw [harith]

/-- C1: after a non-manual transport loss from a freshly opened connection
(attempt counter 0, delay 5000 ms, ceiling 60000 ms), the run of scheduled
reconnect delays across `k` further consecutive failures is
`min(5000·2^i, 60000)` for `i = 0, 1, …, k` — i.e. 5, 10, 20, 40, 60, 60,
60, … seconds (base 5 s, doubling, capped at 60 s) — and any successful
`onopen` resets the attempt counter to 0 and the stored delay to 5000 ms, so
the next scheduled delay after a later loss is the base 5000 ms again. -/
theorem backoff_delays_and_reset (s : WSClient) (k : Nat)
    (hm : s.manualDisconnect = false) (hr : s.reconnecting = false)
    (ha : s.reconnectAttempts = 0) (hd : s.reconnectDelay = 5000)
    (hx : s.maxReconnectDelay = 60000) :
    s.lossThenFailures k =
      (List.range (k + 1)).map (fun i => min (5000 * 2 ^ i) 60000) ∧
    ((List.range 7).map (fun i => min (5000 * 2 ^ i) 60000)).map (fun d => d / 1000)
      = [5, 10, 20, 40, 60, 60, 60] ∧
    (∀ t : WSClient, (t.handleOpen).1.reconnectAttempts = 0 ∧
                     (t.handleOpen).1.reconnectDelay = 5000) ∧
    (∀ t : WSClient, t.manualDisconnect = false →
       t.maxReconnectDelay = 60000 →
       (((t.handleOpen).1).handleClose).2 = some 5000) := by
  refine ⟨?_, by decide, ?_, ?_⟩
  · unfold WSClient.lossThenFailures
    rw [handleClose_not_manual hm hr]
    dsimp only
    rw [failRunDelays_formula k s.bumpAttempts hm hd hx]
    simp only [ha, hd, hx, bump_reconnectAttempts, pow_zero, mul_one,
      Option.toList_some, List.singleton_append, List.range_succ_eq_map,
      List.map_cons, List.map_map, Nat.add_zero, Nat.zero_add]
    refine congrArg₂ List.cons (by norm_num) ?_
    refine List.map_congr_left fun i _ => ?_
    show min (5000 * 2 ^ (0 + 1 + i)) 60000 = min (5000 * 2 ^ (i + 1)) 60000
    have harith : 0 + 1 + i = i + 1 := by omega
    rw [harith]
  · intro t
    rw [WSClient.handleOpen_eq]
    exact ⟨rfl, rfl⟩
  · intro t htm htx
    rw [WSClient.handleOpen_eq]
    dsimp only
    rw [handleClose_not_manual (s := t.openReset) htm rfl]
    simp [WSClient.openReset, htx]

/-- Witness for `backoff_delays_and_reset`: from a fresh client the first
seven scheduled delays are 5, 10, 20, 40, 60, 60, 60 seconds. -/
theorem backoff_delays_and_reset_witness :
    WSClient.initState.lossThenFailures 6 =
      [5000, 10000, 20000, 40000, 60000, 60000, 60000] := by
  rw [(backoff_delays_and_reset WSClient.initState 6 rfl rfl rfl rfl rfl).1]
  decide

/-!  ## Typing-debounce properties -/

theorem find?_filter_ne_none (l : List (Nat × Nat)) (u : Nat) :
    (l.filter (fun p => p.1 ≠ u)).find? (fun p => p.1 == u) = none := by
  refine List.find?_eq_none.2 fun x hx => ?_
  rcases List.mem_filter.1 hx with ⟨_, hne⟩
  simpa using by simpa using hne

theorem timeoutFor_set_self (l : List (Nat × Nat)) (u d : Nat) :
    timeoutFor (timeoutSet l u d) u = some d := by
  unfold timeoutFor timeoutSet
  rw [List.find?_append, find?_filter_ne_none]
  simp

theorem timeoutFor_clear_self (l : List (Nat × Nat)) (u : Nat) :
    timeoutFor (timeoutClear l u) u = none := by
  unfold timeoutFor timeoutClear
  rw [find?_filter_ne_none]
  rfl

theorem typingHandler_true_eq (r u now : Nat) (s : TypingState) :
    typingHandler r now s (typingEvtFrame r u true) =
      { typingUsers :=
          if u ∈ s.typingUsers then s.typingUsers else s.typingUsers ++ [u]
        timeouts := timeoutSet s.timeouts u (now + 3000) } := by
  unfold typingHandler typingEvtFrame contentTypingTrue
  simp

theorem typingHandler_false_eq (r u now : Nat) (s : TypingState) :
    typingHandler r now s (typingEvtFrame r u false) =
      { typingUsers := s.typingUsers.filter (fun id => id ≠ u)
        timeouts := timeoutClear s.timeouts u } := by
  unfold typingHandler typingEvtFrame contentTypingTrue
  simp

theorem mem_typingUsers_after_true (r u now : Nat) (s : TypingState) :
    u ∈ (typingHandler r now s (typingEvtFrame r u true)).typingUsers := by
  rw [typingHandler_true_eq]
  dsimp only
  split
  · assumption
  · simp

theorem not_mem_expire_of_due {t : Nat} {s : TypingState} {u : Nat}
    (hd : timeoutDue s.timeouts u t = true) :
    u ∉ (expire t s).typingUsers := by
  unfold expire
  intro hmem
  rcases List.mem_filter.1 hmem with ⟨_, hkeep⟩
  rw [hd] at hkeep
  simp at hkeep

theorem mem_expire_of_not_due {t : Nat} {s : TypingState} {u : Nat}
    (hu : u ∈ s.typingUsers) (hd : timeoutDue s.timeouts u t = false) :
    u ∈ (expire t s).typingUsers := by
  unfold expire
  exact List.mem_filter.2 ⟨hu, by simp [hd]⟩

/-- C7: an inbound `typing=true` for `(room, user)` makes the user visible in
`typingUsers` immediately and arms a removal deadline exactly 3000 ms ahead;
with no further events the user is still present at any time before the
deadline and gone once the virtual clock reaches it; a further `typing=true`
before expiry replaces the pending deadline with a fresh full window. -/
theorem typing_true_tracked_until_expiry (r u now t1 t2 now2 : Nat)
    (s : TypingState) (ht1 : t1 < now + 3000) (ht2 : now + 3000 ≤ t2) :
    u ∈ (typingHandler r now s (typingEvtFrame r u true)).typingUsers ∧
    timeoutFor (typingHandler r now s (typingEvtFrame r u true)).timeouts u
      = some (now + 3000) ∧
    u ∈ (expire t1 (typingHandler r now s (typingEvtFrame r u true))).typingUsers ∧
    u ∉ (expire t2 (typingHandler r now s (typingEvtFrame r u true))).typingUsers ∧
    timeoutFor
      (typingHandler r now2 (typingHandler r now s (typingEvtFrame r u true))
        (typingEvtFrame r u true)).timeouts u = some (now2 + 3000) := by
  have hmem := mem_typingUsers_after_true r u now s
  have hfor :
      timeoutFor (typingHandler r now s (typingEvtFrame r u true)).timeouts u
        = some (now + 3000) := by
    rw [typingHandler_true_eq]
    exact timeoutFor_set_self _ _ _
  have hdue1 :
      timeoutDue (typingHandler r now s (typingEvtFrame r u true)).timeouts u t1
        = false := by
    unfold timeoutDue
    rw [hfor]
    exact decide_eq_false (Nat.not_le.2 ht1)
  have hdue2 :
      timeoutDue (typingHandler r now s (typingEvtFrame r u true)).timeouts u t2
        = true := by
    unfold timeoutDue
    rw [hfor]
    exact decide_eq_true ht2
  refine ⟨hmem, hfor, mem_expire_of_not_due hmem hdue1,
    not_mem_expire_of_due hdue2, ?_⟩
  rw [typingHandler_true_eq r u now2]
  exact timeoutFor_set_self _ _ _

/-- Witness for `typing_true_tracked_until_expiry`: user 7 typing in room 1
at time 0 is tracked at time 2999 and gone at time 3000. -/
theorem typing_true_tracked_until_expiry_witness :
    7 ∈ (expire 2999
        (typingHandler 1 0 TypingState.initState (typingEvtFrame 1 7 true))).typingUsers ∧
    7 ∉ (expire 3000
        (typingHandler 1 0 TypingState.initState (typingEvtFrame 1 7 true))).typingUsers :=
  ⟨(typing_true_tracked_until_expiry 1 7 0 2999 3000 10 TypingState.initState
      (by decide) (by decide)).2.2.1,
   (typing_true_tracked_until_expiry 1 7 0 2999 3000 10 TypingState.initState
      (by decide) (by decide)).2.2.2.1⟩

/-- C8: an inbound `typing=false` for `(room, user)` removes the user from
the tracked set immediately — whatever the state, so in particular before any
expiry window has elapsed — and cancels the user's pending expiry timeout. -/
theorem typing_false_removes_immediately (r u now : Nat) (s : TypingState) :
    u ∉ (typingHandler r now s (typingEvtFrame r u false)).typingUsers ∧
    timeoutFor (typingHandler r now s (typingEvtFrame r u false)).timeouts u
      = none := by
  rw [typingHandler_false_eq]
  refine ⟨?_, timeoutFor_clear_self _ _⟩
  intro hmem
  rcases List.mem_filter.1 hmem with ⟨_, hne⟩
  simp at hne

/-!  ## Self-typing filtering -/

/-- C3 counterexample: the `useTypingIndicator` tracker of
`hooks/useWebSocket.ts` performs NO filtering of the local user's id — with
local user id 7, an inbound `typing=true` event carrying `user_id = 7` for
the tracked room changes the tracker state and puts 7 into the exposed
typing set, so the claim fails on this tracker. -/
theorem typing_no_self_filter_cex :
    typingHandler 1 0 TypingState.initState (typingEvtFrame 1 7 true)
        ≠ TypingState.initState ∧
    7 ∈ (typingHandler 1 0 TypingState.initState
          (typingEvtFrame 1 7 true)).typingUsers := by
  decide

theorem ctxTypingHandler_self {c roomId now : Nat} {s : TypingState}
    {msg : WSMessage} (hc : c ≠ 0) (hu : msg.user_id = c) :
    ctxTypingHandler (some c) roomId now s msg = s := by
  unfold ctxTypingHandler
  by_cases hr : msg.room_id = roomId
  · simp [hr, hu, hc]
  · simp [hr]

theorem not_mem_expire_of_not_mem {t : Nat} {s : TypingState} {c : Nat}
    (h : c ∉ s.typingUsers) : c ∉ (expire t s).typingUsers :=
  fun hmem => h (List.mem_filter.1 hmem).1

theorem ctxTypingHandler_not_add {c roomId now : Nat} {s : TypingState}
    {msg : WSMessage} (hne : msg.user_id ≠ c) (hcs : c ∉ s.typingUsers) :
    c ∉ (ctxTypingHandler (some c) roomId now s msg).typingUsers := by
  unfold ctxTypingHandler
  dsimp only
  split
  · exact hcs
  · split
    · exact hcs
    · split
      · dsimp only
        split
        · exact hcs
        · intro hmem
          rcases List.mem_append.1 hmem with h1 | h1
          · exact hcs h1
          · exact hne (List.mem_singleton.1 h1).symm
      · dsimp only
        intro hmem
        exact hcs (List.mem_filter.1 hmem).1

theorem runCtx_not_mem (c roomId : Nat) (hc : c ≠ 0) (es : List TypingEvt) :
    ∀ s : TypingState, c ∉ s.typingUsers →
      c ∉ (runCtxTyping (some c) roomId es s).typingUsers := by
  induction es with
  | nil => intro s h; exact h
  | cons e es ih =>
    intro s h
    cases e with
    | msg now f =>
      by_cases hu : f.user_id = c
      · show c ∉ (runCtxTyping (some c) roomId es
          (ctxTypingHandler (some c) roomId now s f)).typingUsers
        rw [ctxTypingHandler_self hc hu]
        exact ih s h
      · exact ih _ (ctxTypingHandler_not_add hu h)
    | clock t => exact ih _ (not_mem_expire_of_not_mem h)

/-- C3 amended: self-filtering holds only in the context-variant tracker and
only when a truthy (nonzero, supplied) `currentUserId` is given: there, every
inbound typing event whose `user_id` equals `currentUserId` leaves the
tracker state unchanged, and `currentUserId` is never a member of the exposed
typing set after any sequence of events; the `hooks/useWebSocket.ts` variant
performs no self-filtering (see the counterexample). -/
theorem ctx_typing_filters_self (c roomId : Nat) (hc : c ≠ 0) :
    (∀ (now : Nat) (s : TypingState) (msg : WSMessage), msg.user_id = c →
        ctxTypingHandler (some c) roomId now s msg = s) ∧
    ∀ es : List TypingEvt,
      c ∉ (runCtxTyping (some c) roomId es TypingState.initState).typingUsers :=
  ⟨fun _ _ _ hu => ctxTypingHandler_self hc hu,
   fun es => runCtx_not_mem c roomId hc es TypingState.initState (by simp [TypingState.initState])⟩

/-- Witness for `ctx_typing_filters_self`: with local user id 7, a self
typing event is a no-op and 7 stays out of the set across a mixed event
sequence. -/
theorem ctx_typing_filters_self_witness :
    ctxTypingHandler (some 7) 1 0 TypingState.initState (typingEvtFrame 1 7 true)
        = TypingState.initState ∧
    7 ∉ (runCtxTyping (some 7) 1
        [TypingEvt.msg 0 (typingEvtFrame 1 5 true),
         TypingEvt.msg 1 (typingEvtFrame 1 7 true),
         TypingEvt.clock 4000]
        TypingState.initState).typingUsers :=
  ⟨(ctx_typing_filters_self 7 1 (by decide)).1 0 TypingState.initState
      (typingEvtFrame 1 7 true) rfl,
   (ctx_typing_filters_self 7 1 (by decide)).2 _⟩

/-!  ## Duplicate-freedom of the exposed lists -/

theorem nodup_append_singleton {l : List Nat} {x : Nat} (h : l.Nodup)
    (hx : x ∉ l) : (l ++ [x]).Nodup := by
  simp [List.nodup_append, h, hx]

theorem typingHandler_nodup {roomId now : Nat} {s : TypingState}
    (h : s.typingUsers.Nodup) (msg : WSMessage) :
    (typingHandler roomId now s msg).typingUsers.Nodup := by
  unfold typingHandler
  dsimp only
  split
  · exact h
  · split
    · dsimp only
      split
      · exact h
      · next hmem => exact nodup_append_singleton h hmem
    · exact h.filter _

theorem expire_nodup {t : Nat} {s : TypingState}
    (h : s.typingUsers.Nodup) : (expire t s).typingUsers.Nodup :=
  h.filter _

theorem runTyping_nodup (roomId : Nat) (es : List TypingEvt) :
    ∀ s : TypingState, s.typingUsers.Nodup →
      (runTyping roomId es s).typingUsers.Nodup := by
  induction es with
  | nil => intro s h; exact h
  | cons e es ih =>
    intro s h
    cases e with
    | msg now f => exact ih _ (typingHandler_nodup h f)
    | clock t => exact ih _ (expire_nodup h)

theorem handleJoinEvt_nodup {l : List Nat} (h : l.Nodup) (msg : WSMessage) :
    (handleJoinEvt l msg).Nodup := by
  unfold handleJoinEvt
  split
  · exact h
  · next hmem => exact nodup_append_singleton h hmem

theorem runOnline_nodup (ps : List PresenceEvt) :
    ∀ l : List Nat, l.Nodup → (runOnline ps l).Nodup := by
  induction ps with
  | nil => intro l h; exact h
  | cons p ps ih =>
    intro l h
    cases p with
    | joined f => exact ih _ (handleJoinEvt_nodup h f)
    | left f => exact ih _ (h.filter _)

/-- C10: after any sequence of inbound events, the exposed typing-users list
(of `useTypingIndicator`) and the exposed online-users list (of
`useOnlineUsers`) each have pairwise-distinct elements: both add handlers
insert a user id only when it is not already present, and removals only
filter. -/
theorem tracker_lists_nodup (roomId : Nat) (es : List TypingEvt)
    (ps : List PresenceEvt) :
    (runTyping roomId es TypingState.initState).typingUsers.Nodup ∧
    (runOnline ps []).Nodup :=
  ⟨runTyping_nodup roomId es TypingState.initState List.nodup_nil,
   runOnline_nodup ps [] List.nodup_nil⟩
